import Mathlib

/-!
A verification development for the core of the embeddable scripting engine in
`src/rhai/src/engine.rs` (together with the test host type of
`src/tests/arrays.rs`).  The evaluator, registry, dot protocol and the
`eval` / `consume` drivers are embedded shallowly; evaluation is made total
with an explicit fuel parameter (`EResult.outOfFuel` marks fuel exhaustion,
i.e. a computation the real engine would still be running), and Rust panics
(unchecked `Vec` indexing, division by zero) are marked by
`EResult.panicked`.  Machine integers are embedded as `Int`/`Nat` with
explicit two's-complement wrapping where the source can overflow
(release-mode semantics).
-/

namespace Rhai

/-- Modelled from the spec: the expression AST produced by the parser
(`parser.rs` is not included under `src/`; the grammar is taken from spec
section 3, which `engine.rs` matches on). -/
inductive Expr where
  | intConst (i : Int)
  | floatConst (f : Float)
  | stringConst (s : String)
  | charConst (c : Char)
  | identifier (id : String)
  | index (id : String) (idx : Expr)
  | array (contents : List Expr)
  | fnCall (name : String) (args : List Expr)
  | assignment (lhs rhs : Expr)
  | dot (lhs rhs : Expr)
  | trueConst
  | falseConst
  | unit

/-- Modelled from the spec: the statement AST produced by the parser
(`parser.rs` is not included under `src/`). -/
inductive Stmt where
  | expr (e : Expr)
  | block (b : List Stmt)
  | ifStmt (guard : Expr) (body : Stmt)
  | ifElse (guard : Expr) (body elseBody : Stmt)
  | whileStmt (guard : Expr) (body : Stmt)
  | loop (body : Stmt)
  | breakStmt
  | returnStmt
  | returnWithVal (e : Expr)
  | var (name : String) (init : Option Expr)

/-- Modelled from the spec: a script function definition (`FnDef` of
`parser.rs`, not included under `src/`): name, ordered parameter names and a
body statement. -/
structure FnDef where
  name : String
  params : List String
  body : Stmt

/-- The runtime type identity (`std::any::TypeId`) restricted to the types
the engine and the sample host register: the built-ins of
`register_default_lib` plus the test struct of `src/tests/arrays.rs`. -/
inductive Ty where
  | tI32
  | tU32
  | tI64
  | tU64
  | tF32
  | tF64
  | tString
  | tChar
  | tBool
  | tUnit
  | tArray
  | tTS
  deriving DecidableEq, Repr

/-- A type-erased boxed value (`Box<Any>`): one concrete instance of a
registered type.  `i64` is embedded as `Int`, `u64`/`u32` as `Nat`,
32-bit floats share the `Float` carrier (their registrations are unreachable
from scripts, which only produce `i64`/`f64` literals).  `ts` is the
`TestStruct { x: i64 }` of `src/tests/arrays.rs`.  Cloning (`box_clone`) is
the identity on these pure values. -/
inductive Value where
  | i32 (v : Int)
  | u32 (v : Nat)
  | int (v : Int)
  | u64 (v : Nat)
  | f32 (v : Float)
  | float (v : Float)
  | str (s : String)
  | char (c : Char)
  | bool (b : Bool)
  | unit
  | arr (a : List Value)
  | ts (x : Int)

/-- `<Any as Any>::type_id`. -/
def Value.typeId : Value → Ty
  | .i32 _ => .tI32
  | .u32 _ => .tU32
  | .int _ => .tI64
  | .u64 _ => .tU64
  | .f32 _ => .tF32
  | .float _ => .tF64
  | .str _ => .tString
  | .char _ => .tChar
  | .bool _ => .tBool
  | .unit => .tUnit
  | .arr _ => .tArray
  | .ts _ => .tTS

/-- The error enum `EvalAltResult` of `engine.rs` (the two control signals
`LoopBreak` and `Return` included). -/
inductive EvalAltResult where
  | errorFunctionNotFound (s : String)
  | errorFunctionArgMismatch
  | errorFunctionCallNotSupported
  | errorIndexMismatch
  | errorIfGuardMismatch
  | errorVariableNotFound (s : String)
  | errorFunctionArityNotSupported
  | errorAssignmentToUnknownLHS
  | errorMismatchOutputType (s : String)
  | errorCantOpenScriptFile
  | internalErrorMalformedDotExpression
  | loopBreak
  | returnValue (v : Value)

/-- Outcome of evaluating a piece of the program.  `ok`/`err` mirror
`Result<_, EvalAltResult>`; `panicked` marks a Rust panic (the source
performs unchecked `Vec` indexing); `outOfFuel` is an artifact of the fuel
based embedding and marks a computation the real (unbounded) interpreter
would still be running. -/
inductive EResult (α : Type) where
  | ok (val : α)
  | err (e : EvalAltResult)
  | panicked
  | outOfFuel

def EResult.map {α β : Type} (f : α → β) : EResult α → EResult β
  | .ok a => .ok (f a)
  | .err e => .err e
  | .panicked => .panicked
  | .outOfFuel => .outOfFuel

/-- `Scope`: a stack of bindings; pushes append at the end, name lookup
scans from the end (innermost wins). -/
abbrev Scope := List (String × Value)

/-- `Engine::search_scope` without the mapping closure: index and value of
the innermost binding with the given name (`iter_mut().enumerate().rev()`
first match). -/
def searchScope : Scope → String → Option (Nat × Value)
  | [], _ => none
  | (n, v) :: rest, id =>
    match searchScope rest id with
    | some (i, w) => some (i + 1, w)
    | none => if n = id then some (0, v) else none

/-- `scope[sc_idx].1 = target`: overwrite the value at a slot, keeping its
name. -/
def setVal (scope : Scope) (i : Nat) (v : Value) : Scope :=
  match scope.get? i with
  | some (n, _) => scope.set i (n, v)
  | none => scope

/-- The `as usize` cast applied to an `i64` index: two's-complement
reinterpretation (negative indices become huge). -/
def i64ToUsize (i : Int) : Nat := (i % (2 ^ 64)).toNat

/-- `scope[sc_idx].1.downcast_mut::<Vec<Box<Any>>>().unwrap()[idx] = v`:
the write-back of a dot-chain scratch into an array cell.  `none` is a
panic: the `unwrap` fails when the slot no longer holds an array, and the
`Vec` indexing fails when `idx` is out of range. -/
def writeArrCell (scope : Scope) (si idx : Nat) (v : Value) : Option Scope :=
  match scope.get? si with
  | some (n, .arr a) =>
    if idx < a.length then some (scope.set si (n, .arr (a.set idx v))) else none
  | _ => none

/-- The inline scope scan of `eval_expr` for `Assignment(Identifier(n), _)`:
overwrite the innermost binding named `n` (the first match of the reversed
iteration), else `ErrorVariableNotFound`. -/
def assignIdInScope (scope : Scope) (id : String) (v : Value) : Scope × EResult Value :=
  match searchScope scope id with
  | some (i, _) => (setVal scope i v, .ok .unit)
  | none => (scope, .err (.errorVariableNotFound id))

/-- The inline scope scan of `eval_expr` for `Assignment(Index(id, _), _)`:
find the innermost binding named `id`; a non-`i64` index or a non-array
value is `ErrorIndexMismatch`; otherwise `arr_typed[i as usize] = v`, which
panics when the (cast) index is out of range. -/
def assignIndexInScope (scope : Scope) (id : String) (idxVal rhsVal : Value) :
    Scope × EResult Value :=
  match searchScope scope id with
  | some (i, val) =>
    match idxVal with
    | .int n =>
      match val with
      | .arr a =>
        if i64ToUsize n < a.length then
          (setVal scope i (.arr (a.set (i64ToUsize n) rhsVal)), .ok .unit)
        else (scope, .panicked)
      | _ => (scope, .err .errorIndexMismatch)
    | _ => (scope, .err .errorIndexMismatch)
  | none => (scope, .err (.errorVariableNotFound id))

/-- A type-erased native callable (`FnAny`): takes the argument list (each
argument is a `&mut` reference in the source, so the possibly mutated
arguments are returned alongside the result). -/
def FnAny : Type := List Value → List Value × EResult Value

/-- `FnIntExt`: a registry entry is a native callable or a script function. -/
inductive FnIntExt where
  | ext (f : FnAny)
  | int (fd : FnDef)

/-- `FnSpec`: dispatch key, name plus optional ordered argument types. -/
structure FnSpec where
  ident : String
  args : Option (List Ty)
  deriving DecidableEq

/-- The engine: the function registry and the type-name map.  The hash maps
are embedded as association lists whose most recent insertion comes first
(so lookup-first-match has insert-overwrites semantics). -/
structure Engine where
  fns : List (FnSpec × FnIntExt)
  typeNames : List (Ty × String)

def lookupFnList : List (FnSpec × FnIntExt) → FnSpec → Option FnIntExt
  | [], _ => none
  | (s, f) :: rest, spec => if s = spec then some f else lookupFnList rest spec

def lookupFn (e : Engine) (spec : FnSpec) : Option FnIntExt :=
  lookupFnList e.fns spec

/-- `HashMap::insert` on the registry. -/
def insertFn (e : Engine) (spec : FnSpec) (f : FnIntExt) : Engine :=
  { e with fns := (spec, f) :: e.fns }

/-- `Engine::register_fn_raw`. -/
def registerFnRaw (e : Engine) (ident : String) (args : Option (List Ty)) (f : FnAny) : Engine :=
  insertFn e ⟨ident, args⟩ (.ext f)

/-- `Engine::register_type_name`. -/
def registerTypeName (e : Engine) (t : Ty) (name : String) : Engine :=
  { e with typeNames := (t, name) :: e.typeNames }

def tyToken : Ty → String
  | .tI32 => "TypeId-i32"
  | .tU32 => "TypeId-u32"
  | .tI64 => "TypeId-i64"
  | .tU64 => "TypeId-u64"
  | .tF32 => "TypeId-f32"
  | .tF64 => "TypeId-f64"
  | .tString => "TypeId-String"
  | .tChar => "TypeId-char"
  | .tBool => "TypeId-bool"
  | .tUnit => "TypeId-unit"
  | .tArray => "TypeId-array"
  | .tTS => "TypeId-TestStruct"

/-- `Engine::nice_type_name`: the registered display name of the value's
runtime type; unknown tokens render with an `<unknown>` prefix (the source
formats the raw `TypeId` debug output, which `tyToken` stands in for). -/
def niceTypeName (e : Engine) (v : Value) : String :=
  match e.typeNames.find? (fun p => p.1 = v.typeId) with
  | some p => p.2
  | none => "<unknown> " ++ tyToken v.typeId

mutual

/-- `Engine::eval_expr`.  The scope (`&mut Scope` in the source) is threaded
through and returned also on error. -/
def evalExpr : Nat → Engine → Scope → Expr → Scope × EResult Value
  | 0, _, scope, _ => (scope, .outOfFuel)
  | fuel + 1, e, scope, expr =>
    match expr with
    | .intConst i => (scope, .ok (.int i))
    | .floatConst f => (scope, .ok (.float f))
    | .stringConst s => (scope, .ok (.str s))
    | .charConst c => (scope, .ok (.char c))
    | .identifier id =>
      match searchScope scope id with
      | some (_, v) => (scope, .ok v)
      | none => (scope, .err (.errorVariableNotFound id))
    | .index id idxRaw =>
      match arrayValue fuel e scope id idxRaw with
      | (scope₁, .ok (_, _, x)) => (scope₁, .ok x)
      | (scope₁, .err er) => (scope₁, .err er)
      | (scope₁, .panicked) => (scope₁, .panicked)
      | (scope₁, .outOfFuel) => (scope₁, .outOfFuel)
    | .assignment lhs rhs =>
      match evalExpr fuel e scope rhs with
      | (scope₁, .ok rhsVal) =>
        match lhs with
        | .identifier n => assignIdInScope scope₁ n rhsVal
        | .index id idxRaw =>
          match evalExpr fuel e scope₁ idxRaw with
          | (scope₂, .ok idxVal) => assignIndexInScope scope₂ id idxVal rhsVal
          | other => other
        | .dot dotLhs dotRhs => setDotVal fuel e scope₁ dotLhs dotRhs rhsVal
        | _ => (scope₁, .err .errorAssignmentToUnknownLHS)
      | other => other
    | .dot lhs rhs => getDotVal fuel e scope lhs rhs
    | .array contents =>
      match evalExprs fuel e scope contents with
      | (scope₁, .ok vs) => (scope₁, .ok (.arr vs))
      | (scope₁, .err er) => (scope₁, .err er)
      | (scope₁, .panicked) => (scope₁, .panicked)
      | (scope₁, .outOfFuel) => (scope₁, .outOfFuel)
    | .fnCall fnName argExprs =>
      match evalExprs fuel e scope argExprs with
      | (scope₁, .ok argVals) => (scope₁, (callFnRaw fuel e fnName argVals).2)
      | (scope₁, .err er) => (scope₁, .err er)
      | (scope₁, .panicked) => (scope₁, .panicked)
      | (scope₁, .outOfFuel) => (scope₁, .outOfFuel)
    | .trueConst => (scope, .ok (.bool true))
    | .falseConst => (scope, .ok (.bool false))
    | .unit => (scope, .ok .unit)

/-- Left-to-right evaluation of an expression list (array literals,
call arguments), short-circuiting on the first error. -/
def evalExprs : Nat → Engine → Scope → List Expr → Scope × EResult (List Value)
  | 0, _, scope, _ => (scope, .outOfFuel)
  | fuel + 1, e, scope, l =>
    match l with
    | [] => (scope, .ok [])
    | x :: rest =>
      match evalExpr fuel e scope x with
      | (scope₁, .ok v) =>
        match evalExprs fuel e scope₁ rest with
        | (scope₂, .ok vs) => (scope₂, .ok (v :: vs))
        | (scope₂, .err er) => (scope₂, .err er)
        | (scope₂, .panicked) => (scope₂, .panicked)
        | (scope₂, .outOfFuel) => (scope₂, .outOfFuel)
      | (scope₁, .err er) => (scope₁, .err er)
      | (scope₁, .panicked) => (scope₁, .panicked)
      | (scope₁, .outOfFuel) => (scope₁, .outOfFuel)

/-- `Engine::array_value`: evaluate the index, downcast it to `i64` (else
`ErrorIndexMismatch`), find the binding (innermost first), require it to be
an array (else `ErrorIndexMismatch`), and clone the element.  The
`arr[idx]` indexing is unchecked in the source and panics out of range. -/
def arrayValue : Nat → Engine → Scope → String → Expr → Scope × EResult (Nat × Nat × Value)
  | 0, _, scope, _, _ => (scope, .outOfFuel)
  | fuel + 1, e, scope, id, idxRaw =>
    match evalExpr fuel e scope idxRaw with
    | (scope₁, .ok idxVal) =>
      match idxVal with
      | .int i =>
        match searchScope scope₁ id with
        | some (si, .arr a) =>
          match a.get? (i64ToUsize i) with
          | some x => (scope₁, .ok (si, i64ToUsize i, x))
          | none => (scope₁, .panicked)
        | some (_, _) => (scope₁, .err .errorIndexMismatch)
        | none => (scope₁, .err (.errorVariableNotFound id))
      | _ => (scope₁, .err .errorIndexMismatch)
    | (scope₁, .err er) => (scope₁, .err er)
    | (scope₁, .panicked) => (scope₁, .panicked)
    | (scope₁, .outOfFuel) => (scope₁, .outOfFuel)

/-- `Engine::get_dot_val`: clone the root (scope slot or array cell) into a
scratch, walk the right chain against the scratch, and write the scratch
back into the originating storage whatever the walk returned. -/
def getDotVal : Nat → Engine → Scope → Expr → Expr → Scope × EResult Value
  | 0, _, scope, _, _ => (scope, .outOfFuel)
  | fuel + 1, e, scope, dotLhs, dotRhs =>
    match dotLhs with
    | .identifier id =>
      match searchScope scope id with
      | none => (scope, .err (.errorVariableNotFound id))
      | some (si, target₀) =>
        match getDotValHelper fuel e scope target₀ dotRhs with
        | (scope₁, target₁, value) => (setVal scope₁ si target₁, value)
    | .index id idxRaw =>
      match arrayValue fuel e scope id idxRaw with
      | (scope₁, .ok (si, idx, target₀)) =>
        match getDotValHelper fuel e scope₁ target₀ dotRhs with
        | (scope₂, target₁, value) =>
          match writeArrCell scope₂ si idx target₁ with
          | some scope₃ => (scope₃, value)
          | none => (scope₂, .panicked)
      | (scope₁, .err er) => (scope₁, .err er)
      | (scope₁, .panicked) => (scope₁, .panicked)
      | (scope₁, .outOfFuel) => (scope₁, .outOfFuel)
    | _ => (scope, .err .internalErrorMalformedDotExpression)

/-- `Engine::get_dot_val_helper`: walk one step of the right chain against
the scratch receiver (`this_ptr`), returning the updated scope, the updated
receiver and the result. -/
def getDotValHelper : Nat → Engine → Scope → Value → Expr → Scope × Value × EResult Value
  | 0, _, scope, thisVal, _ => (scope, thisVal, .outOfFuel)
  | fuel + 1, e, scope, thisVal, dotRhs =>
    match dotRhs with
    | .fnCall fnName argExprs =>
      match evalExprs fuel e scope argExprs with
      | (scope₁, .ok argVals) =>
        let pr := callFnRaw fuel e fnName (thisVal :: argVals)
        (scope₁, pr.1.headD thisVal, pr.2)
      | (scope₁, .err er) => (scope₁, thisVal, .err er)
      | (scope₁, .panicked) => (scope₁, thisVal, .panicked)
      | (scope₁, .outOfFuel) => (scope₁, thisVal, .outOfFuel)
    | .identifier id =>
      let pr := callFnRaw fuel e ("get$" ++ id) [thisVal]
      (scope, pr.1.headD thisVal, pr.2)
    | .index id idxRaw =>
      match evalExpr fuel e scope idxRaw with
      | (scope₁, .ok idxVal) =>
        let pr := callFnRaw fuel e ("get$" ++ id) [thisVal]
        let this₁ := pr.1.headD thisVal
        match pr.2 with
        | .ok got =>
          match got, idxVal with
          | .arr a, .int i =>
            match a.get? (i64ToUsize i) with
            | some x => (scope₁, this₁, .ok x)
            | none => (scope₁, this₁, .panicked)
          | _, _ => (scope₁, this₁, .err .errorIndexMismatch)
        | .err er => (scope₁, this₁, .err er)
        | .panicked => (scope₁, this₁, .panicked)
        | .outOfFuel => (scope₁, this₁, .outOfFuel)
      | (scope₁, .err er) => (scope₁, thisVal, .err er)
      | (scope₁, .panicked) => (scope₁, thisVal, .panicked)
      | (scope₁, .outOfFuel) => (scope₁, thisVal, .outOfFuel)
    | .dot innerLhs innerRhs =>
      match innerLhs with
      | .identifier id =>
        let pr := callFnRaw fuel e ("get$" ++ id) [thisVal]
        let this₁ := pr.1.headD thisVal
        match pr.2 with
        | .ok v =>
          match getDotValHelper fuel e scope v innerRhs with
          | (scope₁, _, value) => (scope₁, this₁, value)
        | .err er => (scope, this₁, .err er)
        | .panicked => (scope, this₁, .panicked)
        | .outOfFuel => (scope, this₁, .outOfFuel)
      | _ => (scope, thisVal, .err .internalErrorMalformedDotExpression)
    | _ => (scope, thisVal, .err .internalErrorMalformedDotExpression)

/-- `Engine::set_dot_val_helper`: walk the right chain of a dot assignment
against the scratch receiver, returning the updated receiver and the
result. -/
def setDotValHelper : Nat → Engine → Value → Expr → Value → Value × EResult Value
  | 0, _, thisVal, _, _ => (thisVal, .outOfFuel)
  | fuel + 1, e, thisVal, dotRhs, sourceVal =>
    match dotRhs with
    | .identifier id =>
      let pr := callFnRaw fuel e ("set$" ++ id) [thisVal, sourceVal]
      (pr.1.headD thisVal, pr.2)
    | .dot innerLhs innerRhs =>
      match innerLhs with
      | .identifier id =>
        let pr := callFnRaw fuel e ("get$" ++ id) [thisVal]
        let this₁ := pr.1.headD thisVal
        match pr.2 with
        | .ok v =>
          match setDotValHelper fuel e v innerRhs sourceVal with
          | (v₁, .ok _) =>
            let pr2 := callFnRaw fuel e ("set$" ++ id) [this₁, v₁]
            (pr2.1.headD this₁, pr2.2)
          | (_, .err er) => (this₁, .err er)
          | (_, .panicked) => (this₁, .panicked)
          | (_, .outOfFuel) => (this₁, .outOfFuel)
        | .err er => (this₁, .err er)
        | .panicked => (this₁, .panicked)
        | .outOfFuel => (this₁, .outOfFuel)
      | _ => (thisVal, .err .internalErrorMalformedDotExpression)
    | _ => (thisVal, .err .internalErrorMalformedDotExpression)

/-- `Engine::set_dot_val`: clone the root into a scratch, walk the right
chain with the assigned value, and write the scratch back into the
originating storage whatever the walk returned. -/
def setDotVal : Nat → Engine → Scope → Expr → Expr → Value → Scope × EResult Value
  | 0, _, scope, _, _, _ => (scope, .outOfFuel)
  | fuel + 1, e, scope, dotLhs, dotRhs, sourceVal =>
    match dotLhs with
    | .identifier id =>
      match searchScope scope id with
      | none => (scope, .err (.errorVariableNotFound id))
      | some (si, target₀) =>
        match setDotValHelper fuel e target₀ dotRhs sourceVal with
        | (target₁, value) => (setVal scope si target₁, value)
    | .index id idxRaw =>
      match arrayValue fuel e scope id idxRaw with
      | (scope₁, .ok (si, idx, target₀)) =>
        match setDotValHelper fuel e target₀ dotRhs sourceVal with
        | (target₁, value) =>
          match writeArrCell scope₁ si idx target₁ with
          | some scope₂ => (scope₂, value)
          | none => (scope₁, .panicked)
      | (scope₁, .err er) => (scope₁, .err er)
      | (scope₁, .panicked) => (scope₁, .panicked)
      | (scope₁, .outOfFuel) => (scope₁, .outOfFuel)
    | _ => (scope, .err .internalErrorMalformedDotExpression)

/-- `Engine::call_fn_raw`: look up the fully typed signature, fall back to
the wildcard signature, fail with `ErrorFunctionNotFound` carrying
`name (t1,t2,...)`.  A native hit runs the native on the argument
references; a script hit clones the arguments into a fresh scope zipped
with the parameter names, runs the body and converts a `Return(x)` control
signal into `Ok(x)`. -/
def callFnRaw : Nat → Engine → String → List Value → List Value × EResult Value
  | 0, _, _, args => (args, .outOfFuel)
  | fuel + 1, e, ident, args =>
    let found :=
      match lookupFn e ⟨ident, some (args.map Value.typeId)⟩ with
      | some f => some f
      | none => lookupFn e ⟨ident, none⟩
    match found with
    | none =>
      (args, .err (.errorFunctionNotFound
        (ident ++ " (" ++ String.intercalate "," (args.map (niceTypeName e)) ++ ")")))
    | some (.ext f) => f args
    | some (.int fd) =>
      match evalStmt fuel e (fd.params.zip args) fd.body with
      | (_, .err (.returnValue x)) => (args, .ok x)
      | (_, r) => (args, r)

/-- `Engine::eval_stmt`. -/
def evalStmt : Nat → Engine → Scope → Stmt → Scope × EResult Value
  | 0, _, scope, _ => (scope, .outOfFuel)
  | fuel + 1, e, scope, stmt =>
    match stmt with
    | .expr ex => evalExpr fuel e scope ex
    | .block b =>
      match blockStmts fuel e scope b with
      | (scope₁, r) => (scope₁.take scope.length, r)
    | .ifStmt guard body =>
      match evalExpr fuel e scope guard with
      | (scope₁, .ok gv) =>
        match gv with
        | .bool true => evalStmt fuel e scope₁ body
        | .bool false => (scope₁, .ok .unit)
        | _ => (scope₁, .err .errorIfGuardMismatch)
      | other => other
    | .ifElse guard body elseBody =>
      match evalExpr fuel e scope guard with
      | (scope₁, .ok gv) =>
        match gv with
        | .bool true => evalStmt fuel e scope₁ body
        | .bool false => evalStmt fuel e scope₁ elseBody
        | _ => (scope₁, .err .errorIfGuardMismatch)
      | other => other
    | .whileStmt guard body =>
      match evalExpr fuel e scope guard with
      | (scope₁, .ok gv) =>
        match gv with
        | .bool true =>
          match evalStmt fuel e scope₁ body with
          | (scope₂, .err .loopBreak) => (scope₂, .ok .unit)
          | (scope₂, .ok _) => evalStmt fuel e scope₂ (.whileStmt guard body)
          | other => other
        | .bool false => (scope₁, .ok .unit)
        | _ => (scope₁, .err .errorIfGuardMismatch)
      | other => other
    | .loop body =>
      match evalStmt fuel e scope body with
      | (scope₁, .err .loopBreak) => (scope₁, .ok .unit)
      | (scope₁, .ok _) => evalStmt fuel e scope₁ (.loop body)
      | other => other
    | .breakStmt => (scope, .err .loopBreak)
    | .returnStmt => (scope, .err (.returnValue .unit))
    | .returnWithVal ex =>
      match evalExpr fuel e scope ex with
      | (scope₁, .ok v) => (scope₁, .err (.returnValue v))
      | other => other
    | .var name init =>
      match init with
      | some ex =>
        match evalExpr fuel e scope ex with
        | (scope₁, .ok v) => (scope₁ ++ [(name, v)], .ok .unit)
        | other => other
      | none => (scope ++ [(name, .unit)], .ok .unit)

/-- The statement loop inside `Stmt::Block`: evaluate in order, short
circuit on the first error; the value is the last statement's value
(`Ok(())` for an empty block).  The caller pops the scope back. -/
def blockStmts : Nat → Engine → Scope → List Stmt → Scope × EResult Value
  | 0, _, scope, _ => (scope, .outOfFuel)
  | fuel + 1, e, scope, l =>
    match l with
    | [] => (scope, .ok .unit)
    | s :: rest =>
      match evalStmt fuel e scope s with
      | (scope₁, .ok v) =>
        match rest with
        | [] => (scope₁, .ok v)
        | _ :: _ => blockStmts fuel e scope₁ rest
      | other => other

end

/-- The statement loop of `eval_with_scope` / `consume_with_scope`: each
top-level statement is evaluated in order against the same scope, the first
error is returned, and the value is the last statement's value (`Ok(())`
when there are no statements). -/
def runStmts (fuel : Nat) (e : Engine) : Scope → List Stmt → Scope × EResult Value
  | scope, [] => (scope, .ok .unit)
  | scope, s :: rest =>
    match evalStmt fuel e scope s with
    | (scope₁, .ok v) =>
      match rest with
      | [] => (scope₁, .ok v)
      | _ :: _ => runStmts fuel e scope₁ rest
    | other => other

/-- The function-registration loop of `eval_with_scope`: every parsed
function definition is inserted under its wildcard signature, with no
arity restriction. -/
def registerFnDefs : Engine → List FnDef → Engine
  | e, [] => e
  | e, f :: rest => registerFnDefs (insertFn e ⟨f.name, none⟩ (.int f)) rest

/-- `Engine::eval_with_scope`, from the parse tree on (the lexer and parser
are outside the embedding; claims about source strings are stated over
their parse trees `(statements, function definitions)`).  Registers the
script functions, runs the statements, and downcasts the final value to the
requested type, failing with `ErrorMismatchOutputType` carrying the display
name of the actual runtime type. -/
def evalWithScopeParsed (fuel : Nat) (e : Engine) (scope : Scope)
    (prog : List Stmt × List FnDef) (t : Ty) : Engine × Scope × EResult Value :=
  let e' := registerFnDefs e prog.2
  match runStmts fuel e' scope prog.1 with
  | (scope₁, .ok v) =>
    if v.typeId = t then (e', scope₁, .ok v)
    else (e', scope₁, .err (.errorMismatchOutputType (niceTypeName e' v)))
  | (scope₁, r) => (e', scope₁, r)

/-- The function-registration loop of `consume_with_scope`: on the first
definition with more than 6 parameters the whole call returns `Ok(())`
immediately (the `Bool` marks that early return); earlier definitions stay
registered. -/
def consumeRegister : Engine → List FnDef → Engine × Bool
  | e, [] => (e, false)
  | e, f :: rest =>
    if f.params.length > 6 then (e, true)
    else consumeRegister (insertFn e ⟨f.name, none⟩ (.int f)) rest

/-- The statement loop of `consume_with_scope`: values are discarded. -/
def consumeStmts (fuel : Nat) (e : Engine) : Scope → List Stmt → Scope × EResult Unit
  | scope, [] => (scope, .ok ())
  | scope, s :: rest =>
    match evalStmt fuel e scope s with
    | (scope₁, .ok _) => consumeStmts fuel e scope₁ rest
    | (scope₁, .err er) => (scope₁, .err er)
    | (scope₁, .panicked) => (scope₁, .panicked)
    | (scope₁, .outOfFuel) => (scope₁, .outOfFuel)

/-- `Engine::consume_with_scope`, from the parse tree on. -/
def consumeWithScopeParsed (fuel : Nat) (e : Engine) (scope : Scope)
    (prog : List Stmt × List FnDef) : Engine × Scope × EResult Unit :=
  match consumeRegister e prog.2 with
  | (e', true) => (e', scope, .ok ())
  | (e', false) =>
    match consumeStmts fuel e' scope prog.1 with
    | (scope₁, r) => (e', scope₁, r)

/-! ### Native-function wrappers

`fn_register.rs` is not included under `src/`; the wrappers below are
modelled from the spec (section 4.1): a registered native receives the
ordered list of mutable `Value` references, downcasts each argument to its
static type, fails with `ErrorFunctionArgMismatch` on an arity or type
mismatch, and — for method-style natives — may mutate its first argument
(the receiver). -/

def Value.asI32 : Value → Option Int
  | .i32 v => some v
  | _ => none

def Value.asU32 : Value → Option Nat
  | .u32 v => some v
  | _ => none

def Value.asI64 : Value → Option Int
  | .int v => some v
  | _ => none

def Value.asU64 : Value → Option Nat
  | .u64 v => some v
  | _ => none

def Value.asF32 : Value → Option Float
  | .f32 v => some v
  | _ => none

def Value.asF64 : Value → Option Float
  | .float v => some v
  | _ => none

def Value.asStr : Value → Option String
  | .str s => some s
  | _ => none

def Value.asBool : Value → Option Bool
  | .bool b => some b
  | _ => none

def Value.asUnit : Value → Option Unit
  | .unit => some ()
  | _ => none

def Value.asTS : Value → Option Int
  | .ts x => some x
  | _ => none

/-- Modelled from the spec: the wrapper `register_fn` produces for a pure
two-argument native (arguments are not mutated). -/
def extFn2 {α β γ : Type} (dc1 : Value → Option α) (dc2 : Value → Option β)
    (mk : γ → Value) (f : α → β → EResult γ) : FnAny := fun args =>
  match args with
  | [a, b] =>
    match dc1 a, dc2 b with
    | some x, some y => (args, (f x y).map mk)
    | _, _ => (args, .err .errorFunctionArgMismatch)
  | _ => (args, .err .errorFunctionArgMismatch)

/-- Modelled from the spec: the wrapper `register_fn` produces for a pure
one-argument native. -/
def extFn1 {α γ : Type} (dc1 : Value → Option α) (mk : γ → Value)
    (f : α → EResult γ) : FnAny := fun args =>
  match args with
  | [a] =>
    match dc1 a with
    | some x => (args, (f x).map mk)
    | none => (args, .err .errorFunctionArgMismatch)
  | _ => (args, .err .errorFunctionArgMismatch)

/-- Modelled from the spec: the wrapper `register_fn` produces for a
zero-argument native. -/
def extFn0 {γ : Type} (mk : γ → Value) (f : Unit → γ) : FnAny := fun args =>
  match args with
  | [] => ([], .ok (mk (f ())))
  | _ => (args, .err .errorFunctionArgMismatch)

/-- Modelled from the spec: the wrapper for a method-style native
`Fn(&mut T) -> U`; the receiver may be mutated in place. -/
def extFnMut1 {α γ : Type} (dc1 : Value → Option α) (mkRec : α → Value)
    (mk : γ → Value) (f : α → α × γ) : FnAny := fun args =>
  match args with
  | [a] =>
    match dc1 a with
    | some x =>
      let (x', r) := f x
      ([mkRec x'], .ok (mk r))
    | none => (args, .err .errorFunctionArgMismatch)
  | _ => (args, .err .errorFunctionArgMismatch)

/-- Modelled from the spec: the wrapper for a method-style native
`Fn(&mut T, U) -> ()`; the receiver may be mutated in place. -/
def extFnMut2 {α β : Type} (dc1 : Value → Option α) (dc2 : Value → Option β)
    (mkRec : α → Value) (f : α → β → α) : FnAny := fun args =>
  match args with
  | [a, b] =>
    match dc1 a, dc2 b with
    | some x, some y => ([mkRec (f x y), b], .ok .unit)
    | _, _ => (args, .err .errorFunctionArgMismatch)
  | _ => (args, .err .errorFunctionArgMismatch)

/-! ### The default library (`Engine::register_default_lib`)

Integer arithmetic is embedded with two's-complement wrapping
(release-mode overflow semantics); division and remainder panic on a zero
divisor and on the overflowing `MIN / -1` case, as Rust does in every
profile.  The float registrations reuse Lean's `Float` (the `f32`
registrations are unreachable from scripts, whose literals are `i64` and
`f64`). -/

def wrapI64 (z : Int) : Int := (z + 2 ^ 63) % 2 ^ 64 - 2 ^ 63

def wrapI32 (z : Int) : Int := (z + 2 ^ 31) % 2 ^ 32 - 2 ^ 31

def wrapU64 (z : Int) : Nat := (z % 2 ^ 64).toNat

def wrapU32 (z : Int) : Nat := (z % 2 ^ 32).toNat

def i64Div (x y : Int) : EResult Int :=
  if y = 0 ∨ (x = -(2 ^ 63) ∧ y = -1) then .panicked else .ok (Int.tdiv x y)

def i64Rem (x y : Int) : EResult Int :=
  if y = 0 ∨ (x = -(2 ^ 63) ∧ y = -1) then .panicked else .ok (Int.tmod x y)

def i32Div (x y : Int) : EResult Int :=
  if y = 0 ∨ (x = -(2 ^ 31) ∧ y = -1) then .panicked else .ok (Int.tdiv x y)

def i32Rem (x y : Int) : EResult Int :=
  if y = 0 ∨ (x = -(2 ^ 31) ∧ y = -1) then .panicked else .ok (Int.tmod x y)

def natDiv (x y : Nat) : EResult Nat :=
  if y = 0 then .panicked else .ok (x / y)

def natRem (x y : Nat) : EResult Nat :=
  if y = 0 then .panicked else .ok (x % y)

def regBinI64 (e : Engine) (name : String) (f : Int → Int → EResult Int) : Engine :=
  registerFnRaw e name (some [.tI64, .tI64]) (extFn2 Value.asI64 Value.asI64 Value.int f)

def regBinI32 (e : Engine) (name : String) (f : Int → Int → EResult Int) : Engine :=
  registerFnRaw e name (some [.tI32, .tI32]) (extFn2 Value.asI32 Value.asI32 Value.i32 f)

def regBinU32 (e : Engine) (name : String) (f : Nat → Nat → EResult Nat) : Engine :=
  registerFnRaw e name (some [.tU32, .tU32]) (extFn2 Value.asU32 Value.asU32 Value.u32 f)

def regBinU64 (e : Engine) (name : String) (f : Nat → Nat → EResult Nat) : Engine :=
  registerFnRaw e name (some [.tU64, .tU64]) (extFn2 Value.asU64 Value.asU64 Value.u64 f)

def regBinF32 (e : Engine) (name : String) (f : Float → Float → Float) : Engine :=
  registerFnRaw e name (some [.tF32, .tF32])
    (extFn2 Value.asF32 Value.asF32 Value.f32 (fun x y => .ok (f x y)))

def regBinF64 (e : Engine) (name : String) (f : Float → Float → Float) : Engine :=
  registerFnRaw e name (some [.tF64, .tF64])
    (extFn2 Value.asF64 Value.asF64 Value.float (fun x y => .ok (f x y)))

def regCmpI32 (e : Engine) (name : String) (f : Int → Int → Bool) : Engine :=
  registerFnRaw e name (some [.tI32, .tI32])
    (extFn2 Value.asI32 Value.asI32 Value.bool (fun x y => .ok (f x y)))

def regCmpI64 (e : Engine) (name : String) (f : Int → Int → Bool) : Engine :=
  registerFnRaw e name (some [.tI64, .tI64])
    (extFn2 Value.asI64 Value.asI64 Value.bool (fun x y => .ok (f x y)))

def regCmpU32 (e : Engine) (name : String) (f : Nat → Nat → Bool) : Engine :=
  registerFnRaw e name (some [.tU32, .tU32])
    (extFn2 Value.asU32 Value.asU32 Value.bool (fun x y => .ok (f x y)))

def regCmpU64 (e : Engine) (name : String) (f : Nat → Nat → Bool) : Engine :=
  registerFnRaw e name (some [.tU64, .tU64])
    (extFn2 Value.asU64 Value.asU64 Value.bool (fun x y => .ok (f x y)))

def regCmpStr (e : Engine) (name : String) (f : String → String → Bool) : Engine :=
  registerFnRaw e name (some [.tString, .tString])
    (extFn2 Value.asStr Value.asStr Value.bool (fun x y => .ok (f x y)))

def regCmpF64 (e : Engine) (name : String) (f : Float → Float → Bool) : Engine :=
  registerFnRaw e name (some [.tF64, .tF64])
    (extFn2 Value.asF64 Value.asF64 Value.bool (fun x y => .ok (f x y)))

def regCmpBool (e : Engine) (name : String) (f : Bool → Bool → Bool) : Engine :=
  registerFnRaw e name (some [.tBool, .tBool])
    (extFn2 Value.asBool Value.asBool Value.bool (fun x y => .ok (f x y)))

/-- `i64` shift amounts are masked to `0..63` (release-mode `<<`/`>>`). -/
def i64Shl (x y : Int) : Int := wrapI64 (x * 2 ^ (y.emod 64).toNat)

def i64Shr (x y : Int) : Int := Int.shiftRight x (y.emod 64).toNat

def i32Shl (x y : Int) : Int := wrapI32 (x * 2 ^ (y.emod 32).toNat)

def i32Shr (x y : Int) : Int := Int.shiftRight x (y.emod 32).toNat

def u64Shl (x y : Nat) : Nat := (x * 2 ^ (y % 64)) % 2 ^ 64

def u64Shr (x y : Nat) : Nat := x / 2 ^ (y % 64)

def u32Shl (x y : Nat) : Nat := (x * 2 ^ (y % 32)) % 2 ^ 32

def u32Shr (x y : Nat) : Nat := x / 2 ^ (y % 32)

/-- `pow_i64_i64`: `x.pow(y as u32)` with release-mode wrapping. -/
def powI64 (x y : Int) : Int := wrapI64 (x ^ wrapU32 y)

/-- `Engine::register_default_lib`, registration for registration in source
order. -/
def registerDefaultLib (e : Engine) : Engine :=
  let e := registerTypeName e .tI32 "i32"
  let e := registerTypeName e .tU32 "u32"
  let e := registerTypeName e .tI64 "integer"
  let e := registerTypeName e .tU64 "u64"
  let e := registerTypeName e .tU64 "usize"
  let e := registerTypeName e .tF32 "f64"
  let e := registerTypeName e .tF64 "float"
  let e := registerTypeName e .tString "string"
  let e := registerTypeName e .tChar "char"
  let e := registerTypeName e .tBool "boolean"
  let e := registerTypeName e .tArray "array"
  -- reg_op!(engine, "+", add, i32, i64, u32, u64, f32, f64)
  let e := regBinI32 e "+" (fun x y => .ok (wrapI32 (x + y)))
  let e := regBinI64 e "+" (fun x y => .ok (wrapI64 (x + y)))
  let e := regBinU32 e "+" (fun x y => .ok (wrapU32 (x + y)))
  let e := regBinU64 e "+" (fun x y => .ok (wrapU64 (x + y)))
  let e := regBinF32 e "+" (fun x y => x + y)
  let e := regBinF64 e "+" (fun x y => x + y)
  -- reg_op!(engine, "-", sub, ...)
  let e := regBinI32 e "-" (fun x y => .ok (wrapI32 (x - y)))
  let e := regBinI64 e "-" (fun x y => .ok (wrapI64 (x - y)))
  let e := regBinU32 e "-" (fun x y => .ok (wrapU32 ((x : Int) - (y : Int))))
  let e := regBinU64 e "-" (fun x y => .ok (wrapU64 ((x : Int) - (y : Int))))
  let e := regBinF32 e "-" (fun x y => x - y)
  let e := regBinF64 e "-" (fun x y => x - y)
  -- reg_op!(engine, "*", mul, ...)
  let e := regBinI32 e "*" (fun x y => .ok (wrapI32 (x * y)))
  let e := regBinI64 e "*" (fun x y => .ok (wrapI64 (x * y)))
  let e := regBinU32 e "*" (fun x y => .ok (wrapU32 (x * y)))
  let e := regBinU64 e "*" (fun x y => .ok (wrapU64 (x * y)))
  let e := regBinF32 e "*" (fun x y => x * y)
  let e := regBinF64 e "*" (fun x y => x * y)
  -- reg_op!(engine, "/", div, ...)
  let e := regBinI32 e "/" i32Div
  let e := regBinI64 e "/" i64Div
  let e := regBinU32 e "/" natDiv
  let e := regBinU64 e "/" natDiv
  let e := regBinF32 e "/" (fun x y => x / y)
  let e := regBinF64 e "/" (fun x y => x / y)
  -- reg_cmp!(engine, "<", lt, i32, i64, u32, u64, String, f64)
  let e := regCmpI32 e "<" (fun x y => decide (x < y))
  let e := regCmpI64 e "<" (fun x y => decide (x < y))
  let e := regCmpU32 e "<" (fun x y => decide (x < y))
  let e := regCmpU64 e "<" (fun x y => decide (x < y))
  let e := regCmpStr e "<" (fun x y => decide (x < y))
  let e := regCmpF64 e "<" (fun x y => x < y)
  -- reg_cmp!(engine, "<=", lte, ...)
  let e := regCmpI32 e "<=" (fun x y => decide (x ≤ y))
  let e := regCmpI64 e "<=" (fun x y => decide (x ≤ y))
  let e := regCmpU32 e "<=" (fun x y => decide (x ≤ y))
  let e := regCmpU64 e "<=" (fun x y => decide (x ≤ y))
  let e := regCmpStr e "<=" (fun x y => decide (x ≤ y))
  let e := regCmpF64 e "<=" (fun x y => x ≤ y)
  -- reg_cmp!(engine, ">", gt, ...)
  let e := regCmpI32 e ">" (fun x y => decide (y < x))
  let e := regCmpI64 e ">" (fun x y => decide (y < x))
  let e := regCmpU32 e ">" (fun x y => decide (y < x))
  let e := regCmpU64 e ">" (fun x y => decide (y < x))
  let e := regCmpStr e ">" (fun x y => decide (y < x))
  let e := regCmpF64 e ">" (fun x y => y < x)
  -- reg_cmp!(engine, ">=", gte, ...)
  let e := regCmpI32 e ">=" (fun x y => decide (y ≤ x))
  let e := regCmpI64 e ">=" (fun x y => decide (y ≤ x))
  let e := regCmpU32 e ">=" (fun x y => decide (y ≤ x))
  let e := regCmpU64 e ">=" (fun x y => decide (y ≤ x))
  let e := regCmpStr e ">=" (fun x y => decide (y ≤ x))
  let e := regCmpF64 e ">=" (fun x y => y ≤ x)
  -- reg_cmp!(engine, "==", eq, i32, i64, u32, u64, bool, String, f64)
  let e := regCmpI32 e "==" (fun x y => decide (x = y))
  let e := regCmpI64 e "==" (fun x y => decide (x = y))
  let e := regCmpU32 e "==" (fun x y => decide (x = y))
  let e := regCmpU64 e "==" (fun x y => decide (x = y))
  let e := regCmpBool e "==" (fun x y => x == y)
  let e := regCmpStr e "==" (fun x y => decide (x = y))
  let e := regCmpF64 e "==" (fun x y => x == y)
  -- reg_cmp!(engine, "!=", ne, ...)
  let e := regCmpI32 e "!=" (fun x y => decide (x ≠ y))
  let e := regCmpI64 e "!=" (fun x y => decide (x ≠ y))
  let e := regCmpU32 e "!=" (fun x y => decide (x ≠ y))
  let e := regCmpU64 e "!=" (fun x y => decide (x ≠ y))
  let e := regCmpBool e "!=" (fun x y => x != y)
  let e := regCmpStr e "!=" (fun x y => decide (x ≠ y))
  let e := regCmpF64 e "!=" (fun x y => x != y)
  -- reg_op!(engine, "||", or, bool); reg_op!(engine, "&&", and, bool)
  let e := regCmpBool e "||" (fun x y => x || y)
  let e := regCmpBool e "&&" (fun x y => x && y)
  -- reg_op!(engine, "|", binary_or, i32, i64, u32, u64); reg_op!(engine, "|", or, bool)
  let e := regBinI32 e "|" (fun x y => .ok (Int.lor x y))
  let e := regBinI64 e "|" (fun x y => .ok (Int.lor x y))
  let e := regBinU32 e "|" (fun x y => .ok (Nat.lor x y))
  let e := regBinU64 e "|" (fun x y => .ok (Nat.lor x y))
  let e := regCmpBool e "|" (fun x y => x || y)
  -- reg_op!(engine, "&", binary_and, i32, i64, u32, u64); reg_op!(engine, "&", and, bool)
  let e := regBinI32 e "&" (fun x y => .ok (Int.land x y))
  let e := regBinI64 e "&" (fun x y => .ok (Int.land x y))
  let e := regBinU32 e "&" (fun x y => .ok (Nat.land x y))
  let e := regBinU64 e "&" (fun x y => .ok (Nat.land x y))
  let e := regCmpBool e "&" (fun x y => x && y)
  -- reg_op!(engine, "^", binary_xor, i32, i64, u32, u64)
  let e := regBinI32 e "^" (fun x y => .ok (Int.xor x y))
  let e := regBinI64 e "^" (fun x y => .ok (Int.xor x y))
  let e := regBinU32 e "^" (fun x y => .ok (Nat.xor x y))
  let e := regBinU64 e "^" (fun x y => .ok (Nat.xor x y))
  -- reg_op!(engine, "<<", left_shift, ...); reg_op!(engine, ">>", right_shift, ...)
  let e := regBinI32 e "<<" (fun x y => .ok (i32Shl x y))
  let e := regBinI64 e "<<" (fun x y => .ok (i64Shl x y))
  let e := regBinU32 e "<<" (fun x y => .ok (u32Shl x y))
  let e := regBinU64 e "<<" (fun x y => .ok (u64Shl x y))
  let e := regBinI32 e ">>" (fun x y => .ok (i32Shr x y))
  let e := regBinI64 e ">>" (fun x y => .ok (i64Shr x y))
  let e := regBinU32 e ">>" (fun x y => .ok (u32Shr x y))
  let e := regBinU64 e ">>" (fun x y => .ok (u64Shr x y))
  -- reg_op!(engine, "%", modulo, i32, i64, u32, u64)
  let e := regBinI32 e "%" i32Rem
  let e := regBinI64 e "%" i64Rem
  let e := regBinU32 e "%" natRem
  let e := regBinU64 e "%" natRem
  -- engine.register_fn("~", pow_i64_i64 / pow_f64_f64 / pow_f64_i64)
  let e := regBinI64 e "~" (fun x y => .ok (powI64 x y))
  let e := regBinF64 e "~" (fun x y => Float.pow x y)
  let e := registerFnRaw e "~" (some [.tF64, .tI64])
    (extFn2 Value.asF64 Value.asI64 Value.float
      (fun x y => .ok (Float.pow x (Float.ofInt y))))
  -- reg_un!(engine, "-", neg, i32, i64, f32, f64)
  let e := registerFnRaw e "-" (some [.tI32])
    (extFn1 Value.asI32 Value.i32 (fun x => .ok (wrapI32 (-x))))
  let e := registerFnRaw e "-" (some [.tI64])
    (extFn1 Value.asI64 Value.int (fun x => .ok (wrapI64 (-x))))
  let e := registerFnRaw e "-" (some [.tF32])
    (extFn1 Value.asF32 Value.f32 (fun x => .ok (-x)))
  let e := registerFnRaw e "-" (some [.tF64])
    (extFn1 Value.asF64 Value.float (fun x => .ok (-x)))
  -- reg_un!(engine, "!", not, bool)
  let e := registerFnRaw e "!" (some [.tBool])
    (extFn1 Value.asBool Value.bool (fun x => .ok (!x)))
  -- engine.register_fn("+", concat)
  let e := registerFnRaw e "+" (some [.tString, .tString])
    (extFn2 Value.asStr Value.asStr Value.str (fun x y => .ok (x ++ y)))
  -- engine.register_fn("==", unit_eq)
  let e := registerFnRaw e "==" (some [.tUnit, .tUnit])
    (extFn2 Value.asUnit Value.asUnit Value.bool (fun _ _ => .ok true))
  e

/-- `Engine::new`: an empty engine with the default library. -/
def engineNew : Engine :=
  registerDefaultLib { fns := [], typeNames := [] }

/-! ### The sample host type of `src/tests/arrays.rs`

`TestStruct { x: i64 }` with `new() -> TestStruct { x: 1 }`,
`get_x(&mut self) -> i64`, `set_x(&mut self, new_x: i64)` and
`update(&mut self)` adding 1000 to `x`; registered with
`register_get_set("x", ...)`, `register_fn("update", ...)` and
`register_fn("new_ts", ...)`. -/

def tsGetX : FnAny := extFnMut1 Value.asTS Value.ts Value.int (fun x => (x, x))

def tsSetX : FnAny := extFnMut2 Value.asTS Value.asI64 Value.ts (fun _ newX => newX)

def tsUpdate : FnAny := extFnMut1 Value.asTS Value.ts (fun _ => Value.unit)
  (fun x => (x + 1000, ()))

def tsNew : FnAny := extFn0 Value.ts (fun _ => 1)

/-- The engine of `test_array_with_structs`: `Engine::new()` plus the
`TestStruct` registrations. -/
def engineTS : Engine :=
  let e := engineNew
  let e := registerFnRaw e "get$x" (some [.tTS]) tsGetX
  let e := registerFnRaw e "set$x" (some [.tTS, .tI64]) tsSetX
  let e := registerFnRaw e "update" (some [.tTS]) tsUpdate
  let e := registerFnRaw e "new_ts" (some []) tsNew
  e

/-! ### Concrete programs and engines used by the claims -/

/-- Parse tree of `let x = [1, 2, 3]; x[3]` (index equal to the length). -/
def progOOB : List Stmt :=
  [ .var "x" (some (.array [.intConst 1, .intConst 2, .intConst 3])),
    .expr (.index "x" (.intConst 3)) ]

/-- Parse tree of `let x = [1, 2, 3]; x[0-1]`, i.e. a negative index. -/
def progNeg : List Stmt :=
  [ .var "x" (some (.array [.intConst 1, .intConst 2, .intConst 3])),
    .expr (.index "x" (.intConst (-1))) ]

/-- Parse tree of `let x = [1, 2, 3]; x[true]` (non-integer index). -/
def progBoolIdx : List Stmt :=
  [ .var "x" (some (.array [.intConst 1, .intConst 2, .intConst 3])),
    .expr (.index "x" .trueConst) ]

/-- Parse tree of `let x = 1; x[0]` (indexing a non-array binding). -/
def progNonArr : List Stmt :=
  [ .var "x" (some (.intConst 1)),
    .expr (.index "x" (.intConst 0)) ]

/-- Parse tree of `let x = 1; if true { let x = 2; } x` (spec scenario 8). -/
def prog81 : List Stmt :=
  [ .var "x" (some (.intConst 1)),
    .ifStmt .trueConst (.block [.var "x" (some (.intConst 2))]),
    .expr (.identifier "x") ]

/-- Parse tree of
`let a = [new_ts()]; a[0].x = 100; a[0].update(); a[0].x`
(`test_array_with_structs` of `src/tests/arrays.rs`). -/
def progTS : List Stmt :=
  [ .var "a" (some (.array [.fnCall "new_ts" []])),
    .expr (.assignment (.dot (.index "a" (.intConst 0)) (.identifier "x")) (.intConst 100)),
    .expr (.dot (.index "a" (.intConst 0)) (.fnCall "update" [])),
    .expr (.dot (.index "a" (.intConst 0)) (.identifier "x")) ]

/-- The script function `fn n(x) { -x }` of `src/tests/unary_minus.rs`. -/
def nDef : FnDef := ⟨"n", ["x"], .block [.expr (.fnCall "-" [.identifier "x"])]⟩

/-- A small registry holding the script function `n` (under its wildcard
signature, as `eval_with_scope` registers it) and the unary `i64` negation
native of the default library. -/
def engC3 : Engine :=
  ⟨[(⟨"n", none⟩, .int nDef),
    (⟨"-", some [.tI64]⟩, .ext (extFn1 Value.asI64 Value.int (fun x => .ok (wrapI64 (-x)))))],
   [(.tI64, "integer")]⟩

/-- A script function definition with 7 parameters. -/
def fn7 : FnDef := ⟨"big", ["a", "b", "c", "d", "e", "f", "g"], .block []⟩

/-- A script function definition with no parameters. -/
def fnG : FnDef := ⟨"g", [], .block []⟩

/-- Parse tree of the single statement `let x = 1;`. -/
def progLetX : List Stmt := [.var "x" (some (.intConst 1))]

/-! ## Helper lemmas -/

theorem setVal_length (scope : Scope) (i : Nat) (v : Value) :
    (setVal scope i v).length = scope.length := by
  unfold setVal
  cases h : scope.get? i with
  | none => rfl
  | some p =>
    obtain ⟨n, w⟩ := p
    simp [List.length_set]

theorem writeArrCell_length {scope s' : Scope} {si idx : Nat} {v : Value}
    (h : writeArrCell scope si idx v = some s') : s'.length = scope.length := by
  unfold writeArrCell at h
  cases hg : scope.get? si with
  | none => rw [hg] at h; exact absurd h (by simp)
  | some p =>
    obtain ⟨n, w⟩ := p
    rw [hg] at h
    cases w <;> simp at h
    obtain ⟨hlt, hset⟩ := h
    subst hset
    simp [List.length_set]

theorem searchScope_append (pre : Scope) (y : String) (w : Value) :
    searchScope (pre ++ [(y, w)]) y = some (pre.length, w) := by
  induction pre with
  | nil => simp [searchScope]
  | cons p pre ih =>
    obtain ⟨n, v⟩ := p
    simp [searchScope, ih]

theorem list_set_append_last {α : Type} (pre : List α) (x z : α) :
    (pre ++ [x]).set pre.length z = pre ++ [z] := by
  induction pre with
  | nil => rfl
  | cons p pre ih => simpa [List.set] using ih

theorem setVal_append (pre : Scope) (y : String) (w v : Value) :
    setVal (pre ++ [(y, w)]) pre.length v = pre ++ [(y, v)] := by
  simp [setVal, List.get?_concat_length, list_set_append_last]

theorem get?_set_self {α : Type} (l : List α) (n : Nat) (a : α) (h : n < l.length) :
    (l.set n a).get? n = some a := by
  induction l generalizing n with
  | nil => simp at h
  | cons x xs ih =>
    cases n with
    | zero => rfl
    | succ m => simpa [List.set] using ih m (by simpa using h)

theorem assignId_length (scope : Scope) (id : String) (v : Value) :
    ((assignIdInScope scope id v).1).length = scope.length := by
  unfold assignIdInScope
  cases h : searchScope scope id with
  | none => rfl
  | some p =>
    obtain ⟨i, w⟩ := p
    simp [setVal_length]

theorem assignIndex_length (scope : Scope) (id : String) (idxVal rhsVal : Value) :
    ((assignIndexInScope scope id idxVal rhsVal).1).length = scope.length := by
  unfold assignIndexInScope
  cases h : searchScope scope id with
  | none => rfl
  | some p =>
    obtain ⟨i, w⟩ := p
    cases idxVal <;> try rfl
    cases w <;> try rfl
    dsimp only
    split
    · simp [setVal_length]
    · rfl

theorem assignIndex_append (pre : Scope) (y : String) (a : List Value) (i : Int) (v : Value)
    (hu : i64ToUsize i < a.length) :
    assignIndexInScope (pre ++ [(y, Value.arr a)]) y (.int i) v
      = (pre ++ [(y, Value.arr (a.set (i64ToUsize i) v))], .ok .unit) := by
  simp [assignIndexInScope, searchScope_append, hu, setVal_append]

/-- No statement or expression ever shrinks the scope: the final scope is
at least as long as the initial one for every entry point of the
evaluator.  (Expressions in fact preserve the length exactly, but the
inequality is what the block discipline needs.) -/
theorem scopeLenAux : ∀ fuel : Nat,
    (∀ e scope ex, scope.length ≤ ((evalExpr fuel e scope ex).1).length)
  ∧ (∀ e scope l, scope.length ≤ ((evalExprs fuel e scope l).1).length)
  ∧ (∀ e scope id ix, scope.length ≤ ((arrayValue fuel e scope id ix).1).length)
  ∧ (∀ e scope t r, scope.length ≤ ((getDotValHelper fuel e scope t r).1).length)
  ∧ (∀ e scope l r, scope.length ≤ ((getDotVal fuel e scope l r).1).length)
  ∧ (∀ e scope l r v, scope.length ≤ ((setDotVal fuel e scope l r v).1).length)
  ∧ (∀ e scope st, scope.length ≤ ((evalStmt fuel e scope st).1).length)
  ∧ (∀ e scope l, scope.length ≤ ((blockStmts fuel e scope l).1).length) := by
  intro fuel
  induction fuel with
  | zero =>
    exact ⟨fun e scope ex => Nat.le_refl _, fun e scope l => Nat.le_refl _,
           fun e scope id ix => Nat.le_refl _, fun e scope t r => Nat.le_refl _,
           fun e scope l r => Nat.le_refl _, fun e scope l r v => Nat.le_refl _,
           fun e scope st => Nat.le_refl _, fun e scope l => Nat.le_refl _⟩
  | succ fuel ih =>
    obtain ⟨ihE, ihEs, ihA, ihH, ihG, ihS, ihT, ihB⟩ := ih
    refine ⟨?_, ?_, ?_, ?_, ?_, ?_, ?_, ?_⟩
    · -- evalExpr
      intro e scope ex
      cases ex with
      | intConst i => exact Nat.le_refl _
      | floatConst f => exact Nat.le_refl _
      | stringConst s => exact Nat.le_refl _
      | charConst c => exact Nat.le_refl _
      | identifier id =>
        simp only [evalExpr]
        rcases searchScope scope id with _ | ⟨i, w⟩ <;> exact Nat.le_refl _
      | index id ix =>
        simp only [evalExpr]
        have h1 := ihA e scope id ix
        rcases hEq : arrayValue fuel e scope id ix with ⟨s₁, r⟩
        rw [hEq] at h1
        cases r with
        | ok v => obtain ⟨si, idx, x⟩ := v; exact h1
        | err er => exact h1
        | panicked => exact h1
        | outOfFuel => exact h1
      | assignment lhs rhs =>
        simp only [evalExpr]
        have h1 := ihE e scope rhs
        rcases hEq : evalExpr fuel e scope rhs with ⟨s₁, r⟩
        rw [hEq] at h1
        cases r with
        | ok rhsVal =>
          dsimp only
          cases lhs <;> try exact h1
          · -- identifier
            rename_i n
            rw [assignId_length]
            exact h1
          · -- index
            rename_i id ix
            dsimp only
            have h2 := ihE e s₁ ix
            rcases hEq2 : evalExpr fuel e s₁ ix with ⟨s₂, r₂⟩
            rw [hEq2] at h2
            cases r₂ with
            | ok idxVal =>
              dsimp only
              rw [assignIndex_length]
              exact Nat.le_trans h1 h2
            | err er => exact Nat.le_trans h1 h2
            | panicked => exact Nat.le_trans h1 h2
            | outOfFuel => exact Nat.le_trans h1 h2
          · -- dot
            rename_i dl dr
            exact Nat.le_trans h1 (ihS e s₁ dl dr rhsVal)
        | err er => exact h1
        | panicked => exact h1
        | outOfFuel => exact h1
      | dot l r =>
        simp only [evalExpr]
        exact ihG e scope l r
      | array contents =>
        simp only [evalExpr]
        have h1 := ihEs e scope contents
        rcases hEq : evalExprs fuel e scope contents with ⟨s₁, r⟩
        rw [hEq] at h1
        cases r <;> exact h1
      | fnCall fnName argExprs =>
        simp only [evalExpr]
        have h1 := ihEs e scope argExprs
        rcases hEq : evalExprs fuel e scope argExprs with ⟨s₁, r⟩
        rw [hEq] at h1
        cases r <;> exact h1
      | trueConst => exact Nat.le_refl _
      | falseConst => exact Nat.le_refl _
      | unit => exact Nat.le_refl _
    · -- evalExprs
      intro e scope l
      cases l with
      | nil => exact Nat.le_refl _
      | cons x rest =>
        simp only [evalExprs]
        have h1 := ihE e scope x
        rcases hEq : evalExpr fuel e scope x with ⟨s₁, r⟩
        rw [hEq] at h1
        cases r with
        | ok v =>
          dsimp only
          have h2 := ihEs e s₁ rest
          rcases hEq2 : evalExprs fuel e s₁ rest with ⟨s₂, r₂⟩
          rw [hEq2] at h2
          cases r₂ <;> exact Nat.le_trans h1 h2
        | err er => exact h1
        | panicked => exact h1
        | outOfFuel => exact h1
    · -- arrayValue
      intro e scope id ix
      simp only [arrayValue]
      have h1 := ihE e scope ix
      rcases hEq : evalExpr fuel e scope ix with ⟨s₁, r⟩
      rw [hEq] at h1
      cases r with
      | ok idxVal =>
        cases idxVal <;> try exact h1
        rename_i i
        dsimp only
        rcases searchScope s₁ id with _ | ⟨si, w⟩
        · exact h1
        · cases w <;> try exact h1
          rename_i a
          dsimp only
          rcases a.get? (i64ToUsize i) with _ | x <;> exact h1
      | err er => exact h1
      | panicked => exact h1
      | outOfFuel => exact h1
    · -- getDotValHelper
      intro e scope t r
      cases r with
      | fnCall fnName argExprs =>
        simp only [getDotValHelper]
        have h1 := ihEs e scope argExprs
        rcases hEq : evalExprs fuel e scope argExprs with ⟨s₁, rr⟩
        rw [hEq] at h1
        cases rr <;> exact h1
      | identifier id =>
        simp only [getDotValHelper]
        exact Nat.le_refl _
      | index id ix =>
        simp only [getDotValHelper]
        have h1 := ihE e scope ix
        rcases hEq : evalExpr fuel e scope ix with ⟨s₁, rr⟩
        rw [hEq] at h1
        cases rr with
        | ok idxVal =>
          dsimp only
          rcases (callFnRaw fuel e ("get$" ++ id) [t]).2 with got | er | _ | _ <;>
            try exact h1
          cases got <;> try exact h1
          rename_i a
          cases idxVal <;> try exact h1
          rename_i i
          dsimp only
          rcases a.get? (i64ToUsize i) with _ | x <;> exact h1
        | err er => exact h1
        | panicked => exact h1
        | outOfFuel => exact h1
      | dot innerLhs innerRhs =>
        cases innerLhs <;> try exact Nat.le_refl _
        rename_i id
        simp only [getDotValHelper]
        rcases (callFnRaw fuel e ("get$" ++ id) [t]).2 with v | er | _ | _ <;>
          try exact Nat.le_refl _
        dsimp only
        have h1 := ihH e scope v innerRhs
        rcases hEq : getDotValHelper fuel e scope v innerRhs with ⟨s₁, t₁, val⟩
        rw [hEq] at h1
        exact h1
      | _ =>
        simp only [getDotValHelper]
        exact Nat.le_refl _
    · -- getDotVal
      intro e scope l r
      cases l <;> try exact Nat.le_refl _
      · -- identifier
        rename_i id
        simp only [getDotVal]
        rcases searchScope scope id with _ | ⟨si, target₀⟩
        · exact Nat.le_refl _
        · dsimp only
          have h1 := ihH e scope target₀ r
          rcases hEq : getDotValHelper fuel e scope target₀ r with ⟨s₁, t₁, val⟩
          rw [hEq] at h1
          dsimp only
          rw [setVal_length]
          exact h1
      · -- index
        rename_i id ix
        simp only [getDotVal]
        have h1 := ihA e scope id ix
        rcases hEq : arrayValue fuel e scope id ix with ⟨s₀, r₀⟩
        rw [hEq] at h1
        cases r₀ with
        | ok v =>
          obtain ⟨si, idx, target₀⟩ := v
          dsimp only
          have h2 := ihH e s₀ target₀ r
          rcases hEq2 : getDotValHelper fuel e s₀ target₀ r with ⟨s₁, t₁, val⟩
          rw [hEq2] at h2
          dsimp only
          rcases hCell : writeArrCell s₁ si idx t₁ with _ | s₂
          · exact Nat.le_trans h1 h2
          · rw [show s₂.length = s₁.length from writeArrCell_length hCell]
            exact Nat.le_trans h1 h2
        | err er => exact h1
        | panicked => exact h1
        | outOfFuel => exact h1
    · -- setDotVal
      intro e scope l r v
      cases l <;> try exact Nat.le_refl _
      · -- identifier
        rename_i id
        simp only [setDotVal]
        rcases searchScope scope id with _ | ⟨si, target₀⟩
        · exact Nat.le_refl _
        · dsimp only
          rcases setDotValHelper fuel e target₀ r v with ⟨t₁, val⟩
          dsimp only
          rw [setVal_length]
      · -- index
        rename_i id ix
        simp only [setDotVal]
        have h1 := ihA e scope id ix
        rcases hEq : arrayValue fuel e scope id ix with ⟨s₀, r₀⟩
        rw [hEq] at h1
        cases r₀ with
        | ok w =>
          obtain ⟨si, idx, target₀⟩ := w
          dsimp only
          rcases setDotValHelper fuel e target₀ r v with ⟨t₁, val⟩
          dsimp only
          rcases hCell : writeArrCell s₀ si idx t₁ with _ | s₂
          · exact h1
          · rw [show s₂.length = s₀.length from writeArrCell_length hCell]
            exact h1
        | err er => exact h1
        | panicked => exact h1
        | outOfFuel => exact h1
    · -- evalStmt
      intro e scope st
      cases st with
      | expr ex =>
        simp only [evalStmt]
        exact ihE e scope ex
      | block b =>
        simp only [evalStmt]
        have h1 := ihB e scope b
        rcases hEq : blockStmts fuel e scope b with ⟨s₁, r⟩
        rw [hEq] at h1
        dsimp only at h1 ⊢
        simp only [List.length_take]
        omega
      | ifStmt g body =>
        simp only [evalStmt]
        have h1 := ihE e scope g
        rcases hEq : evalExpr fuel e scope g with ⟨s₁, r⟩
        rw [hEq] at h1
        cases r with
        | ok gv =>
          cases gv <;> try exact h1
          rename_i bv
          cases bv
          · exact h1
          · exact Nat.le_trans h1 (ihT e s₁ body)
        | err er => exact h1
        | panicked => exact h1
        | outOfFuel => exact h1
      | ifElse g body elseBody =>
        simp only [evalStmt]
        have h1 := ihE e scope g
        rcases hEq : evalExpr fuel e scope g with ⟨s₁, r⟩
        rw [hEq] at h1
        cases r with
        | ok gv =>
          cases gv <;> try exact h1
          rename_i bv
          cases bv
          · exact Nat.le_trans h1 (ihT e s₁ elseBody)
          · exact Nat.le_trans h1 (ihT e s₁ body)
        | err er => exact h1
        | panicked => exact h1
        | outOfFuel => exact h1
      | whileStmt g body =>
        simp only [evalStmt]
        have h1 := ihE e scope g
        rcases hEq : evalExpr fuel e scope g with ⟨s₁, r⟩
        rw [hEq] at h1
        cases r with
        | ok gv =>
          cases gv <;> try exact h1
          rename_i bv
          cases bv
          · exact h1
          · dsimp only
            have h2 := ihT e s₁ body
            rcases hEq2 : evalStmt fuel e s₁ body with ⟨s₂, r₂⟩
            rw [hEq2] at h2
            cases r₂ with
            | ok _ =>
              exact Nat.le_trans (Nat.le_trans h1 h2)
                (ihT e s₂ (Stmt.whileStmt g body))
            | err er => cases er <;> exact Nat.le_trans h1 h2
            | panicked => exact Nat.le_trans h1 h2
            | outOfFuel => exact Nat.le_trans h1 h2
        | err er => exact h1
        | panicked => exact h1
        | outOfFuel => exact h1
      | loop body =>
        simp only [evalStmt]
        have h1 := ihT e scope body
        rcases hEq : evalStmt fuel e scope body with ⟨s₁, r⟩
        rw [hEq] at h1
        cases r with
        | ok _ => exact Nat.le_trans h1 (ihT e s₁ (Stmt.loop body))
        | err er => cases er <;> exact h1
        | panicked => exact h1
        | outOfFuel => exact h1
      | breakStmt => exact Nat.le_refl _
      | returnStmt => exact Nat.le_refl _
      | returnWithVal ex =>
        simp only [evalStmt]
        have h1 := ihE e scope ex
        rcases hEq : evalExpr fuel e scope ex with ⟨s₁, r⟩
        rw [hEq] at h1
        cases r <;> exact h1
      | var name init =>
        cases init with
        | none =>
          simp only [evalStmt]
          simp
        | some ex =>
          simp only [evalStmt]
          have h1 := ihE e scope ex
          rcases hEq : evalExpr fuel e scope ex with ⟨s₁, r⟩
          rw [hEq] at h1
          cases r with
          | ok v =>
            dsimp only at h1 ⊢
            simp only [List.length_append, List.length_cons, List.length_nil]
            omega
          | err er => exact h1
          | panicked => exact h1
          | outOfFuel => exact h1
    · -- blockStmts
      intro e scope l
      cases l with
      | nil => exact Nat.le_refl _
      | cons s rest =>
        simp only [blockStmts]
        have h1 := ihT e scope s
        rcases hEq : evalStmt fuel e scope s with ⟨s₁, r⟩
        rw [hEq] at h1
        cases r with
        | ok v =>
          cases rest with
          | nil => exact h1
          | cons s2 rest2 =>
            have h2 := ihB e s₁ (s2 :: rest2)
            exact Nat.le_trans h1 h2
        | err er => exact h1
        | panicked => exact h1
        | outOfFuel => exact h1

/-! ## The claims -/

/-- C1.  The spec says a negative or too-large index is an `IndexMismatch`
error.  On the code, only a non-integer index and a non-array named value
produce `ErrorIndexMismatch`; a negative or out-of-range index reaches the
unchecked `arr[idx]` and panics. -/
theorem c1_behavior :
    (evalWithScopeParsed 9 (Engine.mk [] []) [] (progOOB, []) Ty.tI64).2.2 = .panicked
  ∧ (evalWithScopeParsed 9 (Engine.mk [] []) [] (progNeg, []) Ty.tI64).2.2 = .panicked
  ∧ (evalWithScopeParsed 9 (Engine.mk [] []) [] (progBoolIdx, []) Ty.tI64).2.2
      = .err .errorIndexMismatch
  ∧ (evalWithScopeParsed 9 (Engine.mk [] []) [] (progNonArr, []) Ty.tI64).2.2
      = .err .errorIndexMismatch :=
  ⟨rfl, rfl, rfl, rfl⟩

/-- C2 counterexample.  `consume_with_scope` of a source defining a 7-ary
function followed by `fn g() {}` and `let x = 1;` returns `Ok(())` with the
engine unchanged (neither `big` nor `g` registered) and the scope untouched
(`let x = 1;` never ran); and `eval_with_scope` of a source defining the
same 7-ary function registers it, so the arity cap does not apply there.
The claim predicted that `g` would still be registered and that the
statement would still execute. -/
theorem c2_counterexample :
    consumeWithScopeParsed 9 (Engine.mk [] []) [] (progLetX, [fn7, fnG])
      = (Engine.mk [] [], [], .ok ())
  ∧ lookupFn (consumeWithScopeParsed 9 (Engine.mk [] []) [] (progLetX, [fn7, fnG])).1
      ⟨"g", none⟩ = none
  ∧ (evalWithScopeParsed 9 (Engine.mk [] []) [] (progLetX, [fn7]) Ty.tUnit).1.fns
      = [(⟨"big", none⟩, FnIntExt.int fn7)] :=
  ⟨rfl, rfl, rfl⟩

/-- C2 amended: in `consume_with_scope`, the first function definition with
more than 6 parameters makes the call return `Ok(())` immediately — earlier
definitions stay registered, later definitions are not registered and no
top-level statement is executed; `eval_with_scope` applies no arity cap (its
registration loop is exactly `registerFnDefs`). -/
theorem c2_amended :
    (∀ (fuel : Nat) (e : Engine) (scope : Scope) (os : List Stmt)
       (pre post : List FnDef) (f : FnDef),
      (∀ g ∈ pre, g.params.length ≤ 6) → 6 < f.params.length →
      consumeWithScopeParsed fuel e scope (os, pre ++ f :: post)
        = (registerFnDefs e pre, scope, .ok ()))
  ∧ (∀ (fuel : Nat) (e : Engine) (scope : Scope) (os : List Stmt)
       (fns : List FnDef) (t : Ty),
      (evalWithScopeParsed fuel e scope (os, fns) t).1 = registerFnDefs e fns) := by
  constructor
  · intro fuel e scope os pre post f hpre hf
    have hreg : ∀ (e : Engine), consumeRegister e (pre ++ f :: post)
        = (registerFnDefs e pre, true) := by
      induction pre with
      | nil =>
        intro e
        simp [consumeRegister, registerFnDefs, hf]
      | cons g pre ih =>
        intro e
        have hg : g.params.length ≤ 6 := hpre g (by simp)
        have : ¬ (g.params.length > 6) := by omega
        simp only [List.cons_append, consumeRegister, this, if_false, registerFnDefs]
        exact ih (fun g hg => hpre g (by simp [hg])) _
    simp [consumeWithScopeParsed, hreg]
  · intro fuel e scope os fns t
    simp only [evalWithScopeParsed]
    rcases runStmts fuel (registerFnDefs e fns) scope os with ⟨scope₁, r⟩
    cases r <;> simp <;> split <;> rfl

/-- C3 counterexample.  Dispatching `n(5)` to the script function
`fn n(x) { -x }` (whose body raises no `Return`) yields `-5`, not Unit, so a
body that finishes without raising `Return` does not make the call yield
Unit. -/
theorem c3_counterexample :
    callFnRaw 10 engC3 "n" [.int 5] = ([.int 5], .ok (.int (-5)))
  ∧ Value.int (-5) ≠ Value.unit :=
  ⟨rfl, fun h => Value.noConfusion h⟩

/-- C3 amended: dispatching to a script-defined function binds each
parameter to (a clone of) the corresponding argument in a fresh scope,
executes the body, converts a `Return(v)` control signal into the
successful result `v`, and otherwise yields the body's own result (the
value of its last executed statement), not Unit. -/
theorem c3_amended (fuel : Nat) (e : Engine) (ident : String) (args : List Value) (fd : FnDef)
    (h1 : lookupFn e ⟨ident, some (args.map Value.typeId)⟩ = none)
    (h2 : lookupFn e ⟨ident, none⟩ = some (.int fd)) :
    callFnRaw (fuel + 1) e ident args
      = (args, match (evalStmt fuel e (fd.params.zip args) fd.body).2 with
               | .err (.returnValue x) => .ok x
               | r => r) := by
  simp only [callFnRaw, h1, h2]
  rcases evalStmt fuel e (fd.params.zip args) fd.body with ⟨s, r⟩
  cases r with
  | err er => cases er <;> rfl
  | _ => rfl

theorem c3_amended_witness :
    callFnRaw 10 engC3 "n" [.int 7] = ([.int 7], .ok (.int (-7))) :=
  c3_amended 9 engC3 "n" [.int 7] nDef rfl rfl

/-- C4 counterexample.  A top-level `break;` makes `evaluate` return the
`LoopBreak` error to the host, and a top-level `return 3;` makes it return
`Return(3)`; the claim says neither is ever visible to the host. -/
theorem c4_counterexample :
    evalWithScopeParsed 5 (Engine.mk [] []) [] ([Stmt.breakStmt], []) Ty.tUnit
      = (Engine.mk [] [], [], .err .loopBreak)
  ∧ evalWithScopeParsed 5 (Engine.mk [] []) [] ([Stmt.returnWithVal (.intConst 3)], []) Ty.tUnit
      = (Engine.mk [] [], [], .err (.returnValue (.int 3))) :=
  ⟨rfl, rfl⟩

/-- C4 amended: `LoopBreak` raised by a loop body is caught by the nearest
enclosing `while`/`loop` (terminating it with Unit), and `Return` raised by
a script function body is caught at the function-call boundary; but a
top-level `break` outside any loop, or a top-level `return`, does surface
`LoopBreak` / `Return` to the host. -/
theorem c4_amended :
    (∀ (fuel : Nat) (e : Engine) (scope scope' : Scope) (b : Stmt),
      (evalStmt fuel e scope b).1 = scope' →
      (evalStmt fuel e scope b).2 = .err .loopBreak →
      evalStmt (fuel + 1) e scope (.loop b) = (scope', .ok .unit))
  ∧ (∀ (fuel : Nat) (e : Engine) (scope scope₁ scope₂ : Scope) (g : Expr) (b : Stmt),
      evalExpr fuel e scope g = (scope₁, .ok (.bool true)) →
      (evalStmt fuel e scope₁ b).1 = scope₂ →
      (evalStmt fuel e scope₁ b).2 = .err .loopBreak →
      evalStmt (fuel + 1) e scope (.whileStmt g b) = (scope₂, .ok .unit))
  ∧ (∀ (fuel : Nat) (e : Engine) (ident : String) (args : List Value) (fd : FnDef) (v : Value),
      lookupFn e ⟨ident, some (args.map Value.typeId)⟩ = none →
      lookupFn e ⟨ident, none⟩ = some (.int fd) →
      (evalStmt fuel e (fd.params.zip args) fd.body).2 = .err (.returnValue v) →
      callFnRaw (fuel + 1) e ident args = (args, .ok v)) := by
  refine ⟨?_, ?_, ?_⟩
  · intro fuel e scope scope' b h1 h2
    rcases hst : evalStmt fuel e scope b with ⟨s, r⟩
    rw [hst] at h1 h2
    simp only at h1 h2
    subst h1 h2
    simp [evalStmt, hst]
  · intro fuel e scope scope₁ scope₂ g b hg h1 h2
    rcases hst : evalStmt fuel e scope₁ b with ⟨s, r⟩
    rw [hst] at h1 h2
    simp only at h1 h2
    subst h1 h2
    simp [evalStmt, hg, hst]
  · intro fuel e ident args fd v h1 h2 h3
    rcases hst : evalStmt fuel e (fd.params.zip args) fd.body with ⟨s, r⟩
    rw [hst] at h3
    simp only at h3
    subst h3
    simp [callFnRaw, h1, h2, hst]

theorem c4_amended_witness :
    evalStmt 2 (Engine.mk [] []) [] (Stmt.loop Stmt.breakStmt) = ([], .ok Value.unit) :=
  c4_amended.1 1 (Engine.mk [] []) [] [] Stmt.breakStmt rfl rfl

/-- C5.  Every entry point of the dot protocol clones the root into a
scratch, walks the chain against the scratch, and writes the scratch back
into the originating storage (scope slot via `setVal`, array cell via
`writeArrCell`); and the `test_array_with_structs` script
`let a = [new_ts()]; a[0].x = 100; a[0].update(); a[0].x` evaluates to
1100. -/
theorem c5_claim :
    (∀ (fuel : Nat) (e : Engine) (scope : Scope) (id : String) (rhs : Expr)
       (si : Nat) (target₀ : Value) (scope₁ : Scope) (target₁ : Value) (value : EResult Value),
      searchScope scope id = some (si, target₀) →
      getDotValHelper fuel e scope target₀ rhs = (scope₁, target₁, value) →
      getDotVal (fuel + 1) e scope (.identifier id) rhs = (setVal scope₁ si target₁, value))
  ∧ (∀ (fuel : Nat) (e : Engine) (scope scope₀ : Scope) (id : String) (idxRaw rhs : Expr)
       (si idx : Nat) (target₀ : Value) (scope₁ : Scope) (target₁ : Value)
       (value : EResult Value),
      arrayValue fuel e scope id idxRaw = (scope₀, .ok (si, idx, target₀)) →
      getDotValHelper fuel e scope₀ target₀ rhs = (scope₁, target₁, value) →
      getDotVal (fuel + 1) e scope (.index id idxRaw) rhs
        = (match writeArrCell scope₁ si idx target₁ with
           | some scope₂ => (scope₂, value)
           | none => (scope₁, .panicked)))
  ∧ (∀ (fuel : Nat) (e : Engine) (scope : Scope) (id : String) (rhs : Expr) (v : Value)
       (si : Nat) (target₀ target₁ : Value) (value : EResult Value),
      searchScope scope id = some (si, target₀) →
      setDotValHelper fuel e target₀ rhs v = (target₁, value) →
      setDotVal (fuel + 1) e scope (.identifier id) rhs v = (setVal scope si target₁, value))
  ∧ (∀ (fuel : Nat) (e : Engine) (scope scope₀ : Scope) (id : String) (idxRaw rhs : Expr)
       (v : Value) (si idx : Nat) (target₀ target₁ : Value) (value : EResult Value),
      arrayValue fuel e scope id idxRaw = (scope₀, .ok (si, idx, target₀)) →
      setDotValHelper fuel e target₀ rhs v = (target₁, value) →
      setDotVal (fuel + 1) e scope (.index id idxRaw) rhs v
        = (match writeArrCell scope₀ si idx target₁ with
           | some scope₂ => (scope₂, value)
           | none => (scope₀, .panicked)))
  ∧ (evalWithScopeParsed 50 engineTS [] (progTS, []) Ty.tI64).2.2 = .ok (.int 1100) := by
  refine ⟨?_, ?_, ?_, ?_, rfl⟩
  · intro fuel e scope id rhs si target₀ scope₁ target₁ value hsearch hwalk
    simp [getDotVal, hsearch, hwalk]
  · intro fuel e scope scope₀ id idxRaw rhs si idx target₀ scope₁ target₁ value harr hwalk
    simp only [getDotVal, harr, hwalk]
  · intro fuel e scope id rhs v si target₀ target₁ value hsearch hwalk
    simp [setDotVal, hsearch, hwalk]
  · intro fuel e scope scope₀ id idxRaw rhs v si idx target₀ target₁ value harr hwalk
    simp only [setDotVal, harr, hwalk]

theorem c5_claim_witness :
    getDotVal 6 engineTS [("o", Value.ts 1)] (.identifier "o") (.identifier "x")
      = ([("o", Value.ts 1)], .ok (.int 1)) :=
  c5_claim.1 5 engineTS [("o", Value.ts 1)] "o" (.identifier "x") 0 (Value.ts 1)
    [("o", Value.ts 1)] (Value.ts 1) (.ok (.int 1)) rfl rfl

/-- C6.  `call_fn_raw` consults the registry first with the fully typed
signature, then with the wildcard signature; a wildcard script hit is
invoked (its body run in the fresh zipped scope, `Return` caught); and when
both lookups miss the call fails with `ErrorFunctionNotFound` whose payload
is the name followed by the parenthesized comma-joined display names of the
argument types. -/
theorem c6_claim (fuel : Nat) (e : Engine) (ident : String) (args : List Value) :
    (lookupFn e ⟨ident, some (args.map Value.typeId)⟩ = none →
      lookupFn e ⟨ident, none⟩ = none →
      callFnRaw (fuel + 1) e ident args
        = (args, .err (.errorFunctionNotFound
            (ident ++ " (" ++ String.intercalate "," (args.map (niceTypeName e)) ++ ")"))))
  ∧ (∀ fd, lookupFn e ⟨ident, some (args.map Value.typeId)⟩ = none →
      lookupFn e ⟨ident, none⟩ = some (.int fd) →
      callFnRaw (fuel + 1) e ident args
        = (args, match (evalStmt fuel e (fd.params.zip args) fd.body).2 with
                 | .err (.returnValue x) => .ok x
                 | r => r))
  ∧ (∀ f, lookupFn e ⟨ident, some (args.map Value.typeId)⟩ = some f →
      callFnRaw (fuel + 1) e ident args
        = (match f with
           | .ext g => g args
           | .int fd =>
             match evalStmt fuel e (fd.params.zip args) fd.body with
             | (_, .err (.returnValue x)) => (args, .ok x)
             | (_, r) => (args, r))) := by
  refine ⟨?_, ?_, ?_⟩
  · intro h1 h2
    simp [callFnRaw, h1, h2]
  · intro fd h1 h2
    simp only [callFnRaw, h1, h2]
    rcases evalStmt fuel e (fd.params.zip args) fd.body with ⟨s, r⟩
    cases r with
    | err er => cases er <;> rfl
    | _ => rfl
  · intro f h1
    cases f <;> simp only [callFnRaw, h1]

theorem c6_claim_witness :
    callFnRaw 1 engC3 "foo" [.int 7]
      = ([.int 7], .err (.errorFunctionNotFound "foo (integer)")) :=
  (c6_claim 0 engC3 "foo" [.int 7]).1 rfl rfl

/-- C10.  The write-back of the scratch receiver into the root storage is
performed even when the walk of the right chain returns an error, for both
dot-protocol entry points and both root shapes, so receiver mutations made
before the failing step persist (the scratch `target₁` is stored whatever
`er` is). -/
theorem c10_claim :
    (∀ (fuel : Nat) (e : Engine) (scope : Scope) (id : String) (rhs : Expr)
       (si : Nat) (target₀ : Value) (scope₁ : Scope) (target₁ : Value) (er : EvalAltResult),
      searchScope scope id = some (si, target₀) →
      getDotValHelper fuel e scope target₀ rhs = (scope₁, target₁, .err er) →
      getDotVal (fuel + 1) e scope (.identifier id) rhs = (setVal scope₁ si target₁, .err er))
  ∧ (∀ (fuel : Nat) (e : Engine) (scope scope₀ : Scope) (id : String) (idxRaw rhs : Expr)
       (si idx : Nat) (target₀ : Value) (scope₁ : Scope) (target₁ : Value)
       (er : EvalAltResult) (scope₂ : Scope),
      arrayValue fuel e scope id idxRaw = (scope₀, .ok (si, idx, target₀)) →
      getDotValHelper fuel e scope₀ target₀ rhs = (scope₁, target₁, .err er) →
      writeArrCell scope₁ si idx target₁ = some scope₂ →
      getDotVal (fuel + 1) e scope (.index id idxRaw) rhs = (scope₂, .err er))
  ∧ (∀ (fuel : Nat) (e : Engine) (scope : Scope) (id : String) (rhs : Expr) (v : Value)
       (si : Nat) (target₀ target₁ : Value) (er : EvalAltResult),
      searchScope scope id = some (si, target₀) →
      setDotValHelper fuel e target₀ rhs v = (target₁, .err er) →
      setDotVal (fuel + 1) e scope (.identifier id) rhs v = (setVal scope si target₁, .err er))
  ∧ (∀ (fuel : Nat) (e : Engine) (scope scope₀ : Scope) (id : String) (idxRaw rhs : Expr)
       (v : Value) (si idx : Nat) (target₀ target₁ : Value) (er : EvalAltResult)
       (scope₂ : Scope),
      arrayValue fuel e scope id idxRaw = (scope₀, .ok (si, idx, target₀)) →
      setDotValHelper fuel e target₀ rhs v = (target₁, .err er) →
      writeArrCell scope₀ si idx target₁ = some scope₂ →
      setDotVal (fuel + 1) e scope (.index id idxRaw) rhs v = (scope₂, .err er)) := by
  refine ⟨?_, ?_, ?_, ?_⟩
  · intro fuel e scope id rhs si target₀ scope₁ target₁ er hsearch hwalk
    simp [getDotVal, hsearch, hwalk]
  · intro fuel e scope scope₀ id idxRaw rhs si idx target₀ scope₁ target₁ er scope₂
      harr hwalk hcell
    simp [getDotVal, harr, hwalk, hcell]
  · intro fuel e scope id rhs v si target₀ target₁ er hsearch hwalk
    simp [setDotVal, hsearch, hwalk]
  · intro fuel e scope scope₀ id idxRaw rhs v si idx target₀ target₁ er scope₂
      harr hwalk hcell
    simp [setDotVal, harr, hwalk, hcell]

theorem c10_claim_witness :
    getDotVal 2 engineTS [("o", Value.ts 1)] (.identifier "o") Expr.unit
      = ([("o", Value.ts 1)], .err .internalErrorMalformedDotExpression) :=
  c10_claim.1 1 engineTS [("o", Value.ts 1)] "o" Expr.unit 0 (Value.ts 1)
    [("o", Value.ts 1)] (Value.ts 1) .internalErrorMalformedDotExpression rfl rfl

theorem c2_amended_witness :
    consumeWithScopeParsed 9 (Engine.mk [] []) [] (progLetX, [fnG, fn7])
      = (registerFnDefs (Engine.mk [] []) [fnG], [], .ok ()) :=
  c2_amended.1 9 (Engine.mk [] []) [] progLetX [fnG] [] fn7
    (by intro g hg; rw [List.mem_singleton] at hg; subst hg; decide) (by decide)

/-- C7.  Block discipline: after evaluating any block statement — whether it
succeeds, errors, or runs out of fuel — the scope length equals its value
before the block; and the shadowing script
`let x = 1; if true { let x = 2; } x` evaluates to 1 (the inner `let x` did
not mutate the outer binding). -/
theorem c7_claim :
    (∀ (fuel : Nat) (e : Engine) (scope : Scope) (b : List Stmt),
      ((evalStmt fuel e scope (.block b)).1).length = scope.length)
  ∧ (evalWithScopeParsed 20 (Engine.mk [] []) [] (prog81, []) Ty.tI64).2.2 = .ok (.int 1) := by
  constructor
  · intro fuel e scope b
    cases fuel with
    | zero => rfl
    | succ fuel =>
      simp only [evalStmt]
      have h1 := (scopeLenAux fuel).2.2.2.2.2.2.2 e scope b
      rcases hEq : blockStmts fuel e scope b with ⟨s₁, r⟩
      rw [hEq] at h1
      dsimp only at h1 ⊢
      simp only [List.length_take]
      omega
  · rfl

theorem runStmts_append_single (fuel : Nat) (e : Engine) (scope s₁ : Scope)
    (os : List Stmt) (st : Stmt) (u : Value)
    (h : runStmts fuel e scope os = (s₁, .ok u)) :
    runStmts fuel e scope (os ++ [st]) = evalStmt fuel e s₁ st := by
  induction os generalizing scope with
  | nil =>
    simp only [runStmts] at h
    injection h with h1 h2
    subst h1
    rcases hst : evalStmt fuel e scope st with ⟨s₂, r₂⟩
    cases r₂ <;> simp [runStmts, hst]
  | cons s os ih =>
    rcases hev : evalStmt fuel e scope s with ⟨sc₁, r⟩
    cases r with
    | ok v =>
      cases os with
      | nil =>
        simp only [runStmts, hev] at h
        injection h with h1 h2
        rw [← h1]
        simp only [List.cons_append, List.nil_append, runStmts, hev]
        rcases hst : evalStmt fuel e sc₁ st with ⟨s₂, r₂⟩
        cases r₂ <;> simp [runStmts, hst]
      | cons s2 os2 =>
        simp only [runStmts, hev] at h
        simp only [List.cons_append, runStmts, hev]
        exact ih sc₁ h
    | err er =>
      simp only [runStmts, hev] at h
      exact absurd h (by simp)
    | panicked =>
      simp only [runStmts, hev] at h
      exact absurd h (by simp)
    | outOfFuel =>
      simp only [runStmts, hev] at h
      exact absurd h (by simp)

/-- C8.  When every statement before the last top-level expression
statement succeeds and the final expression evaluates to `v`,
`eval_with_scope` returns `v` downcast to the requested type `t`, failing
with `ErrorMismatchOutputType` carrying the display name of `v`'s actual
runtime type when the downcast does not apply. -/
theorem c8_claim (fuel : Nat) (e : Engine) (scope scope₁ scope₂ : Scope)
    (os' : List Stmt) (ex : Expr) (fns : List FnDef) (t : Ty) (u v : Value)
    (hpre : runStmts fuel (registerFnDefs e fns) scope os' = (scope₁, .ok u))
    (hex : evalStmt fuel (registerFnDefs e fns) scope₁ (.expr ex) = (scope₂, .ok v)) :
    evalWithScopeParsed fuel e scope (os' ++ [.expr ex], fns) t
      = (registerFnDefs e fns, scope₂,
         if v.typeId = t then .ok v
         else .err (.errorMismatchOutputType (niceTypeName (registerFnDefs e fns) v))) := by
  have hrun := runStmts_append_single fuel (registerFnDefs e fns) scope scope₁ os'
    (.expr ex) u hpre
  simp only [evalWithScopeParsed, hrun, hex]
  split <;> simp

theorem c8_claim_witness :
    evalWithScopeParsed 3 engineNew [] ([.expr (.intConst 7)], []) Ty.tBool
      = (engineNew, [], .err (.errorMismatchOutputType "integer")) :=
  c8_claim 3 engineNew [] [] [] [] (.intConst 7) [] Ty.tBool .unit (.int 7) rfl rfl

/-- C9.  Array element round trip: with `y` innermost-bound to an array `a`
and `0 ≤ i < len(a)` an `i64` index, evaluating the indexed assignment
`y[i] = rhs` (where `rhs` evaluates to `v`) succeeds with Unit and stores
`v` at slot `i`, and then reading `y[i]` yields `v`. -/
theorem c9_claim (fuel : Nat) (e : Engine) (rest : Scope) (a : List Value)
    (i : Int) (v : Value) (rhs : Expr)
    (h0 : 0 ≤ i) (hlen : i < (a.length : Int)) (h63 : i < 2 ^ 63)
    (hrhs : evalExpr (fuel + 1) e (rest ++ [("y", Value.arr a)]) rhs
             = (rest ++ [("y", Value.arr a)], .ok v)) :
    evalExpr (fuel + 2) e (rest ++ [("y", Value.arr a)])
        (.assignment (.index "y" (.intConst i)) rhs)
      = (rest ++ [("y", Value.arr (a.set i.toNat v))], .ok .unit)
  ∧ (evalExpr (fuel + 3) e (rest ++ [("y", Value.arr (a.set i.toNat v))])
        (.index "y" (.intConst i))).2 = .ok v := by
  have hiu : i64ToUsize i = i.toNat := by
    unfold i64ToUsize
    rw [Int.emod_eq_of_lt h0 (by omega)]
  have hu : i64ToUsize i < a.length := by
    rw [hiu]
    omega
  have hget : ((a.set i.toNat v).get? i.toNat) = some v :=
    get?_set_self a i.toNat v (by omega)
  constructor
  · have hidx : evalExpr (fuel + 1) e (rest ++ [("y", Value.arr a)]) (.intConst i)
        = (rest ++ [("y", Value.arr a)], .ok (.int i)) := rfl
    rw [evalExpr]
    dsimp only
    rw [hrhs]
    dsimp only
    rw [hidx]
    dsimp only
    rw [assignIndex_append rest "y" a i v hu, hiu]
  · have hidx : evalExpr (fuel + 1) e (rest ++ [("y", Value.arr (a.set i.toNat v))]) (.intConst i)
        = (rest ++ [("y", Value.arr (a.set i.toNat v))], .ok (.int i)) := rfl
    rw [evalExpr]
    try dsimp only
    rw [arrayValue]
    try dsimp only
    rw [hidx]
    try dsimp only
    rw [searchScope_append]
    try dsimp only
    rw [hiu, hget]
    try rfl

theorem c9_claim_witness :
    evalExpr 3 (Engine.mk [] []) [("y", Value.arr [Value.int 1, Value.int 2])]
        (.assignment (.index "y" (.intConst 1)) (.intConst 9))
      = ([("y", Value.arr [Value.int 1, Value.int 9])], .ok .unit)
  ∧ (evalExpr 4 (Engine.mk [] []) [("y", Value.arr [Value.int 1, Value.int 9])]
        (.index "y" (.intConst 1))).2 = .ok (.int 9) :=
  c9_claim 1 (Engine.mk [] []) [] [Value.int 1, Value.int 2] 1 (.int 9) (.intConst 9)
    (by decide) (by decide) (by decide) rfl

end Rhai
